import Mathlib

/-!
Verification of the truthbeam enrichment cache coordinator.

The embedding follows the source:
  - truthbeam/internal/client/cacheable.go : NewCacheableClient, Retrieve, callEnrich
  - the go-cache library semantics used by cacheable.go (Get/Set with TTL)
  - the processor batch loop processLogs

Types Policy, Compliance, EnrichmentResponse and the parsed response shape are
generated client code not present in the repository snapshot; they are modelled
from the spec and from their use sites in cacheable.go.
-/

/-- Modelled from the spec: EnrichmentResult compliance metadata, an immutable
value type whose fields are unknown here; modelled as an opaque string-carrying
record. Its Go zero value corresponds to data being empty. -/
structure Compliance where
  data : String
deriving DecidableEq

/-- The Go zero value Compliance{} returned on error paths of Retrieve. -/
def complianceZero : Compliance := ⟨""⟩

/-- Modelled from the spec: LookupKey, a policy-rule identifier paired with an
engine name; field names follow the use sites policy.PolicyRuleId and
policy.PolicyEngineName in cacheable.go. -/
structure Policy where
  PolicyRuleId : String
  PolicyEngineName : String
deriving DecidableEq

/-- Modelled from the spec: the structured error body of the remote service
(JSONDefault), carrying a code and a message as used in callEnrich. -/
structure APIErrorBody where
  Code : Int
  Message : String
deriving DecidableEq

/-- Modelled from the spec: the success body of the remote service (JSON200),
carrying the Compliance metadata as used in Retrieve (resp.Compliance). -/
structure EnrichmentResponse where
  Compliance : Compliance
deriving DecidableEq

/-- The possible outcomes of the remote interaction as seen by callEnrich:
PostV1Enrich may fail with a transport error, ParsePostV1EnrichResponse may
fail, or a parsed response arrives with its HTTP status text and the two
optional bodies JSON200 and JSONDefault. -/
inductive RemoteOutcome where
  | transportErr (msg : String)
  | parseErr (msg : String)
  | parsed (status : String) (json200 : Option EnrichmentResponse)
      (jsonDefault : Option APIErrorBody)
deriving DecidableEq

/-- CacheableClient.callEnrich from cacheable.go: transport and parse errors
are returned as-is; a JSON200 body is the success result; a JSONDefault body
becomes an error carrying the remote code and message; anything else becomes
the distinct unexpected-response error. -/
def callEnrich (outcome : RemoteOutcome) : Except String EnrichmentResponse :=
  match outcome with
  | .transportErr m => .error m
  | .parseErr m => .error m
  | .parsed status json200 jsonDefault =>
    match json200 with
    | some r => .ok r
    | none =>
      match jsonDefault with
      | some e =>
          .error ("API call failed with status " ++ toString e.Code ++ ": " ++ e.Message)
      | none => .error ("unexpected response status: " ++ status)

/-- go-cache constant NoExpiration (-1): durations below 1ns never expire. -/
def NoExpiration : Int := -1

/-- The two durations NewCacheableClient configures on the go-cache instance. -/
structure CacheConfig where
  defaultExpiration : Int
  cleanupInterval : Int
deriving DecidableEq

/-- NewCacheableClient from cacheable.go: the cache is created with the given
ttl as default expiration; the cleanup interval is NoExpiration when ttl is
NoExpiration and ttl / 2 otherwise. The background sweep only removes already
expired entries, so it has no effect on the Get semantics modelled below. -/
def NewCacheableClient (ttl : Int) : CacheConfig :=
  ⟨ttl, if ttl = NoExpiration then NoExpiration else ttl / 2⟩

/-- A go-cache entry: the stored value and its absolute expiration instant
(none when the entry never expires). Times are in nanoseconds as Int. -/
structure CacheEntry where
  value : Compliance
  expiration : Option Int

/-- The visible state of the go-cache store: key to entry. -/
def CacheSt : Type := String → Option CacheEntry

/-- The empty cache. -/
def emptyCache : CacheSt := fun _ => none

/-- go-cache Get at instant now: an entry whose expiration instant lies
strictly in the past behaves as absent. -/
def cacheGet (st : CacheSt) (now : Int) (k : String) : Option Compliance :=
  match st k with
  | none => none
  | some e =>
    match e.expiration with
    | none => some e.value
    | some exp => if now > exp then none else some e.value

/-- go-cache Set with DefaultExpiration at instant now: the configured default
ttl applies; a ttl of at most zero stores the entry without expiration. -/
def cacheSet (st : CacheSt) (now ttl : Int) (k : String) (v : Compliance) : CacheSt :=
  fun q => if q = k then some ⟨v, if ttl > 0 then some (now + ttl) else none⟩ else st q

/-- The Go-style result of Retrieve: the Compliance value, the error slot,
the cache state after the call, and how many times the remote fetcher
(callEnrich) was invoked during the call. -/
structure RetrieveOut where
  value : Compliance
  err : Option String
  st : CacheSt
  fetchCalls : Nat

/-- CacheableClient.Retrieve from cacheable.go, sequential semantics: fast-path
Get on policy.PolicyRuleId; on miss, Get again under the lock; on a confirmed
miss, callEnrich once; on fetch error return Compliance{} and the wrapped
error without touching the cache; on success Set the result with the
configured default expiration and return it. -/
def Retrieve (remote : RemoteOutcome) (cfg : CacheConfig) (now : Int)
    (st : CacheSt) (policy : Policy) : RetrieveOut :=
  match cacheGet st now policy.PolicyRuleId with
  | some v => ⟨v, none, st, 0⟩
  | none =>
    match cacheGet st now policy.PolicyRuleId with
    | some v => ⟨v, none, st, 0⟩
    | none =>
      match callEnrich remote with
      | .error e => ⟨complianceZero, some ("failed to fetch metadata: " ++ e), st, 1⟩
      | .ok resp =>
          ⟨resp.Compliance, none,
            cacheSet st now cfg.defaultExpiration policy.PolicyRuleId resp.Compliance, 1⟩

/-!
Interleaving model of Retrieve for two concurrent callers on one key.
Each thread executes the program of CacheableClient.Retrieve; the atomic
steps correspond to source lines of cacheable.go: the lock-free fast-path
Get, acquiring c.mu, the second Get under the lock, issuing callEnrich, and
completing the fetch (Set plus unlock on success, unlock on error).
-/

/-- Program counter of one caller of Retrieve. fetching carries the pending
outcome of the issued callEnrich (some value or a failure). -/
inductive TState where
  | start
  | lockWait
  | recheck
  | fetching (r : Option Compliance)
  | doneOk (v : Compliance)
  | doneErr
deriving DecidableEq

/-- A thread holds the coordinator lock exactly while it is between a
successful mu.Lock and the deferred mu.Unlock: re-checking or fetching. -/
def holdsLock : TState → Bool
  | .recheck => true
  | .fetching _ => true
  | _ => false

/-- A thread with an outstanding remote fetch. -/
def isFetching : TState → Bool
  | .fetching _ => true
  | _ => false

/-- A thread whose Retrieve call has returned. -/
def isDone : TState → Bool
  | .doneOk _ => true
  | .doneErr => true
  | _ => false

/-- Shared state of the two-caller system: the cached value for the one key
under contention, the number of fetcher invocations so far, and the two
thread states. -/
structure CConfig where
  cache : Option Compliance
  fetchCount : Nat
  t0 : TState
  t1 : TState
deriving DecidableEq

/-- One atomic step of a thread of Retrieve, given the state of the other thread.
The oracle gives the outcome of the n-th fetcher invocation. Returns the new
thread state, cache and fetch count.
  start: the lock-free fast-path cache.Get (hit returns, miss proceeds);
  lockWait: mu.Lock, taken only when the other thread does not hold it;
  recheck: the second cache.Get under the lock (hit returns and unlocks,
    miss issues callEnrich, counting one fetcher invocation);
  fetching: the fetch completes: on success the result is Set in the cache
    and returned (unlocking), on failure nothing is cached and the call
    returns the error (unlocking). -/
def tstep (ora : Nat → Option Compliance) (self other : TState)
    (cache : Option Compliance) (fc : Nat) : TState × Option Compliance × Nat :=
  match self with
  | .start =>
    match cache with
    | some v => (.doneOk v, cache, fc)
    | none => (.lockWait, cache, fc)
  | .lockWait =>
    if holdsLock other then (.lockWait, cache, fc) else (.recheck, cache, fc)
  | .recheck =>
    match cache with
    | some v => (.doneOk v, cache, fc)
    | none => (.fetching (ora fc), cache, fc + 1)
  | .fetching r =>
    match r with
    | some v => (.doneOk v, some v, fc)
    | none => (.doneErr, cache, fc)
  | .doneOk v => (.doneOk v, cache, fc)
  | .doneErr => (.doneErr, cache, fc)

/-- Step the system by letting thread tid (false for t0, true for t1) run one
atomic step. -/
def step (ora : Nat → Option Compliance) (c : CConfig) (tid : Bool) : CConfig :=
  match tid with
  | false =>
    match tstep ora c.t0 c.t1 c.cache c.fetchCount with
    | (t, cache, fc) => ⟨cache, fc, t, c.t1⟩
  | true =>
    match tstep ora c.t1 c.t0 c.cache c.fetchCount with
    | (t, cache, fc) => ⟨cache, fc, c.t0, t⟩

/-- Run a schedule: the list gives which thread steps at each instant. -/
def run (ora : Nat → Option Compliance) (sched : List Bool) (c : CConfig) : CConfig :=
  sched.foldl (step ora) c

/-- Both callers start before the key was ever fetched: empty cache, no
fetcher invocations. -/
def initConfig : CConfig := ⟨none, 0, .start, .start⟩

/-!
Batch loop of the processor (processLogs in the truthbeam processor file).
Log records, the extractor and the applier live outside the core; they are
abstracted as type parameters and oracle functions with the signatures used
at the call sites: Extract gives a Policy and a status, Apply merges the
enrichment into the record.
-/

/-- The body of the innermost loop of processLogs for one record: extraction
failure is logged and skips the record; a Retrieve error is logged and leaves
the record unmodified; an Apply error is logged with the record left as the
pipeline produced it; otherwise the applied record replaces the original.
The cache state is threaded through the Retrieve calls. -/
def processRecord {α σ : Type} (ext : α → Except String (Policy × σ))
    (app : α → Compliance → σ → Except String α)
    (remote : Policy → RemoteOutcome) (cfg : CacheConfig) (now : Int)
    (st : CacheSt) (r : α) : α × CacheSt :=
  match ext r with
  | .error _ => (r, st)
  | .ok (policy, status) =>
    let out := Retrieve (remote policy) cfg now st policy
    match out.err with
    | some _ => (r, out.st)
    | none =>
      match app r out.value status with
      | .error _ => (r, out.st)
      | .ok rApplied => (rApplied, out.st)

/-- The record loop of processLogs, in batch order, threading the cache. -/
def processLoop {α σ : Type} (ext : α → Except String (Policy × σ))
    (app : α → Compliance → σ → Except String α)
    (remote : Policy → RemoteOutcome) (cfg : CacheConfig) (now : Int) :
    List α → CacheSt → List α × CacheSt
  | [], st => ([], st)
  | r :: rs, st =>
    match processRecord ext app remote cfg now st r with
    | (rOut, stNext) =>
      match processLoop ext app remote cfg now rs stNext with
      | (rsOut, stFinal) => (rOut :: rsOut, stFinal)

/-- The result of processLogs: the records (same batch, in order), the final
cache state, and the error slot of the Go return value. -/
structure ProcessLogsOut (α : Type) where
  records : List α
  st : CacheSt
  err : Option String

/-- truthBeamProcessor.processLogs: iterates all records, handling every
per-record failure internally, and returns the batch with a nil error
(the only return statement is return ld, nil). -/
def processLogs {α σ : Type} (ext : α → Except String (Policy × σ))
    (app : α → Compliance → σ → Except String α)
    (remote : Policy → RemoteOutcome) (cfg : CacheConfig) (now : Int)
    (records : List α) (st : CacheSt) : ProcessLogsOut α :=
  ⟨(processLoop ext app remote cfg now records st).1,
   (processLoop ext app remote cfg now records st).2, none⟩

/-- The state of the thread designated by tid (false for t0, true for t1). -/
def tstateOf (c : CConfig) (tid : Bool) : TState :=
  match tid with
  | false => c.t0
  | true => c.t1

/-- Mutual exclusion of the coordinator lock: the two threads never hold it
simultaneously. -/
def lockExcl (c : CConfig) : Prop :=
  ¬(holdsLock c.t0 = true ∧ holdsLock c.t1 = true)

/-- Inductive invariant for runs whose fetcher oracle always succeeds with the
value v: the lock is exclusive; the cache holds nothing or v; at most one
fetch has been issued; a cached value means the single fetch completed; a
fetching thread carries the pending success, with the cache still empty; a
finished thread got v after the single fetch; no thread fails; and a counted
fetch is accounted for by the cache or an in-flight thread. -/
structure OkInv (v : Compliance) (a b : TState) (cache : Option Compliance)
    (fc : Nat) : Prop where
  mutex : ¬(holdsLock a = true ∧ holdsLock b = true)
  cacheVal : cache = none ∨ cache = some v
  fcLe : fc ≤ 1
  cacheFc : cache = some v → fc = 1
  fetchA : ∀ r, a = .fetching r → r = some v ∧ cache = none ∧ fc = 1
  fetchB : ∀ r, b = .fetching r → r = some v ∧ cache = none ∧ fc = 1
  okA : ∀ w, a = .doneOk w → w = v ∧ fc = 1
  okB : ∀ w, b = .doneOk w → w = v ∧ fc = 1
  errA : a ≠ .doneErr
  errB : b ≠ .doneErr
  fcAccounted : fc = 1 → cache = some v ∨ isFetching a = true ∨ isFetching b = true

/-- The invariant read off a configuration. -/
def okInvC (v : Compliance) (c : CConfig) : Prop :=
  OkInv v c.t0 c.t1 c.cache c.fetchCount

/-- Claim C3: for every key present and unexpired in the store, Retrieve
returns the cached value with no error, leaves the store unchanged, and never
invokes the remote fetcher. -/
theorem retrieve_hit_no_fetch (remote : RemoteOutcome) (cfg : CacheConfig)
    (now : Int) (st : CacheSt) (p : Policy) (v : Compliance)
    (h : cacheGet st now p.PolicyRuleId = some v) :
    Retrieve remote cfg now st p = ⟨v, none, st, 0⟩ := by
  simp [Retrieve, h]

/-- Witness for C3 at a concrete cached key. -/
theorem retrieve_hit_no_fetch_witness :
    cacheGet (cacheSet emptyCache 0 (-1) "rule-1" ⟨"meta"⟩) 5 "rule-1" = some ⟨"meta"⟩
    ∧ Retrieve (.transportErr "down") (NewCacheableClient 10) 5
        (cacheSet emptyCache 0 (-1) "rule-1" ⟨"meta"⟩) ⟨"rule-1", "engine"⟩
      = ⟨⟨"meta"⟩, none, cacheSet emptyCache 0 (-1) "rule-1" ⟨"meta"⟩, 0⟩ :=
  ⟨by decide,
   retrieve_hit_no_fetch (.transportErr "down") (NewCacheableClient 10) 5
     (cacheSet emptyCache 0 (-1) "rule-1" ⟨"meta"⟩) ⟨"rule-1", "engine"⟩ ⟨"meta"⟩ (by decide)⟩

/-- Claim C4: when the remote fetch performed on a miss fails, Retrieve
returns an error and performs no Set: the store is the same state as before
the call and still has no entry for the key. -/
theorem retrieve_fetch_failure_leaves_store (remote : RemoteOutcome)
    (cfg : CacheConfig) (now : Int) (st : CacheSt) (p : Policy) (e : String)
    (hmiss : cacheGet st now p.PolicyRuleId = none)
    (herr : callEnrich remote = .error e) :
    Retrieve remote cfg now st p
      = ⟨complianceZero, some ("failed to fetch metadata: " ++ e), st, 1⟩
    ∧ cacheGet (Retrieve remote cfg now st p).st now p.PolicyRuleId = none := by
  constructor
  · simp [Retrieve, hmiss, herr]
  · simp [Retrieve, hmiss, herr]

/-- Witness for C4 at a concrete transport failure. -/
theorem retrieve_fetch_failure_leaves_store_witness :
    cacheGet emptyCache 0 "rule-1" = none
    ∧ callEnrich (.transportErr "boom") = .error "boom"
    ∧ (Retrieve (.transportErr "boom") (NewCacheableClient 10) 0 emptyCache
        ⟨"rule-1", "engine"⟩
        = ⟨complianceZero, some ("failed to fetch metadata: " ++ "boom"), emptyCache, 1⟩
      ∧ cacheGet (Retrieve (.transportErr "boom") (NewCacheableClient 10) 0 emptyCache
          ⟨"rule-1", "engine"⟩).st 0 "rule-1" = none) :=
  ⟨by decide, rfl,
   retrieve_fetch_failure_leaves_store (.transportErr "boom") (NewCacheableClient 10) 0
     emptyCache ⟨"rule-1", "engine"⟩ "boom" (by decide) rfl⟩

/-- Claim C9, counterexample: for the concrete key rule-1 and a failing fetch,
the error Retrieve returns is exactly the wrap of the underlying error, and
the key does not occur anywhere in it — the returned error does not carry the
key (it is only written to the log). -/
theorem retrieve_error_omits_key :
    (Retrieve (.transportErr "boom") (NewCacheableClient 10) 0 emptyCache
        ⟨"rule-1", "engine"⟩).err = some "failed to fetch metadata: boom"
    ∧ ¬ List.IsInfix "rule-1".toList "failed to fetch metadata: boom".toList := by
  constructor
  · decide
  · decide

/-- Claim C9, amended: when the remote fetch fails, Retrieve returns a wrapped
error (the fixed prefix around the underlying fetch error); the failing key is
identified in the log call, not inside the returned error value. -/
theorem retrieve_error_is_wrapped (remote : RemoteOutcome) (cfg : CacheConfig)
    (now : Int) (st : CacheSt) (p : Policy) (e : String)
    (hmiss : cacheGet st now p.PolicyRuleId = none)
    (herr : callEnrich remote = .error e) :
    (Retrieve remote cfg now st p).err = some ("failed to fetch metadata: " ++ e) := by
  simp [Retrieve, hmiss, herr]

/-- Witness for the amended C9. -/
theorem retrieve_error_is_wrapped_witness :
    cacheGet emptyCache 0 "rule-1" = none
    ∧ callEnrich (.parseErr "bad json") = .error "bad json"
    ∧ (Retrieve (.parseErr "bad json") (NewCacheableClient 10) 0 emptyCache
        ⟨"rule-1", "engine"⟩).err = some ("failed to fetch metadata: " ++ "bad json") :=
  ⟨by decide, rfl,
   retrieve_error_is_wrapped (.parseErr "bad json") (NewCacheableClient 10) 0 emptyCache
     ⟨"rule-1", "engine"⟩ "bad json" (by decide) rfl⟩

/-- Claim C10: whenever Retrieve returns an error, the value slot is the zero
value of Compliance — never partial or stale data. -/
theorem retrieve_error_returns_zero_value (remote : RemoteOutcome)
    (cfg : CacheConfig) (now : Int) (st : CacheSt) (p : Policy) (e : String)
    (h : (Retrieve remote cfg now st p).err = some e) :
    (Retrieve remote cfg now st p).value = complianceZero := by
  rcases hg : cacheGet st now p.PolicyRuleId with _ | v
  · rcases hc : callEnrich remote with r | e0
    · simp [Retrieve, hg, hc]
    · simp [Retrieve, hg, hc] at h
  · simp [Retrieve, hg] at h

/-- Witness for C10 at a concrete failing fetch. -/
theorem retrieve_error_returns_zero_value_witness :
    (Retrieve (.transportErr "boom") (NewCacheableClient 10) 0 emptyCache
        ⟨"rule-1", "engine"⟩).err = some "failed to fetch metadata: boom"
    ∧ (Retrieve (.transportErr "boom") (NewCacheableClient 10) 0 emptyCache
        ⟨"rule-1", "engine"⟩).value = complianceZero :=
  ⟨by decide,
   retrieve_error_returns_zero_value (.transportErr "boom") (NewCacheableClient 10) 0
     emptyCache ⟨"rule-1", "engine"⟩ "failed to fetch metadata: boom" (by decide)⟩

/-- Claim C5: callEnrich maps the remote outcomes distinctly — a JSON200 body
yields exactly that result; a JSONDefault body yields the error carrying the
remote code and message; a response with neither yields the distinct
unexpected-response error; transport and parse failures propagate; and a
success value is never produced except from a genuine JSON200 body. -/
theorem callEnrich_maps_outcomes :
    (∀ (status : String) (r : EnrichmentResponse) (d : Option APIErrorBody),
      callEnrich (.parsed status (some r) d) = .ok r)
    ∧ (∀ (status : String) (code : Int) (msg : String),
      callEnrich (.parsed status none (some ⟨code, msg⟩))
        = .error ("API call failed with status " ++ toString code ++ ": " ++ msg))
    ∧ (∀ status : String,
      callEnrich (.parsed status none none)
        = .error ("unexpected response status: " ++ status))
    ∧ (∀ m : String, callEnrich (.transportErr m) = .error m)
    ∧ (∀ m : String, callEnrich (.parseErr m) = .error m)
    ∧ (∀ (o : RemoteOutcome) (r : EnrichmentResponse), callEnrich o = .ok r →
      ∃ status d, o = .parsed status (some r) d) := by
  refine ⟨fun _ _ _ => rfl, fun _ _ _ => rfl, fun _ => rfl, fun _ => rfl, fun _ => rfl, ?_⟩
  intro o r h
  match o with
  | .transportErr m => simp [callEnrich] at h
  | .parseErr m => simp [callEnrich] at h
  | .parsed s json200 jsonDefault =>
    match json200 with
    | some r0 =>
      simp [callEnrich] at h
      exact ⟨s, jsonDefault, by rw [h]⟩
    | none =>
      cases jsonDefault <;> simp [callEnrich] at h

/-- Witness for C5: the only-from-JSON200 conjunct at a concrete response. -/
theorem callEnrich_maps_outcomes_witness :
    callEnrich (.parsed "200 OK" (some ⟨⟨"meta"⟩⟩) none) = .ok ⟨⟨"meta"⟩⟩
    ∧ ∃ status d, (RemoteOutcome.parsed "200 OK" (some ⟨⟨"meta"⟩⟩) none)
        = .parsed status (some ⟨⟨"meta"⟩⟩) d :=
  ⟨rfl, callEnrich_maps_outcomes.2.2.2.2.2 (.parsed "200 OK" (some ⟨⟨"meta"⟩⟩) none)
    ⟨⟨"meta"⟩⟩ rfl⟩

/-- On a successful fetch (one fetcher call, no error), Retrieve went through
the miss path and stored the fetched result with the configured default
expiration. -/
theorem retrieve_success_shape (remote : RemoteOutcome) (cfg : CacheConfig)
    (now : Int) (st : CacheSt) (p : Policy)
    (h1 : (Retrieve remote cfg now st p).fetchCalls = 1)
    (h0 : (Retrieve remote cfg now st p).err = none) :
    ∃ resp, callEnrich remote = .ok resp
      ∧ cacheGet st now p.PolicyRuleId = none
      ∧ Retrieve remote cfg now st p
        = ⟨resp.Compliance, none,
           cacheSet st now cfg.defaultExpiration p.PolicyRuleId resp.Compliance, 1⟩ := by
  rcases hg : cacheGet st now p.PolicyRuleId with _ | v
  · rcases hc : callEnrich remote with r | resp
    · simp [Retrieve, hg, hc] at h0
    · exact ⟨resp, rfl, rfl, by simp [Retrieve, hg, hc]⟩
  · simp [Retrieve, hg] at h1

/-- A Set with non-positive ttl is visible at every later Get on its key. -/
theorem cacheGet_set_same_noexp (st : CacheSt) (now ttl : Int) (k : String)
    (v : Compliance) (now2 : Int) (h : ttl ≤ 0) :
    cacheGet (cacheSet st now ttl k v) now2 k = some v := by
  simp [cacheGet, cacheSet, show ¬(ttl > 0) by omega]

/-- A Set with positive ttl is visible on its key until the expiration
instant (inclusive). -/
theorem cacheGet_set_same_live (st : CacheSt) (now ttl : Int) (k : String)
    (v : Compliance) (now2 : Int) (h : 0 < ttl) (h2 : now2 ≤ now + ttl) :
    cacheGet (cacheSet st now ttl k v) now2 k = some v := by
  simp [cacheGet, cacheSet, show ttl > 0 from h, show ¬(now2 > now + ttl) by omega]

/-- A Set with positive ttl behaves as absent strictly after the expiration
instant. -/
theorem cacheGet_set_same_expired (st : CacheSt) (now ttl : Int) (k : String)
    (v : Compliance) (now2 : Int) (h : 0 < ttl) (h2 : now + ttl < now2) :
    cacheGet (cacheSet st now ttl k v) now2 k = none := by
  simp [cacheGet, cacheSet, show ttl > 0 from h, show now2 > now + ttl by omega]

/-- A Set is visible on its own key at the instant of the Set, for any ttl. -/
theorem cacheGet_set_same_now (st : CacheSt) (now ttl : Int) (k : String)
    (v : Compliance) :
    cacheGet (cacheSet st now ttl k v) now k = some v := by
  rcases le_or_lt ttl 0 with h | h
  · exact cacheGet_set_same_noexp st now ttl k v now h
  · exact cacheGet_set_same_live st now ttl k v now h (by omega)

/-- A Set on one key never changes what Get sees on a different key. -/
theorem cacheGet_set_other (st : CacheSt) (now ttl : Int) (k : String)
    (v : Compliance) (now2 : Int) (q : String) (h : q ≠ k) :
    cacheGet (cacheSet st now ttl k v) now2 q = cacheGet st now2 q := by
  simp [cacheGet, cacheSet, h]

/-- Claim C8: with the never-expire TTL, once a Retrieve has fetched
successfully every later Retrieve of the key is a hit with no further fetch,
at any instant; with a finite TTL T, a Retrieve at instant T plus a positive
epsilon after the caching instant misses and performs exactly one new fetch. -/
theorem retrieve_ttl_expiry :
    (∀ (remote : RemoteOutcome) (now0 : Int) (st : CacheSt) (p : Policy),
      (Retrieve remote (NewCacheableClient NoExpiration) now0 st p).err = none →
      (Retrieve remote (NewCacheableClient NoExpiration) now0 st p).fetchCalls = 1 →
      ∀ (remote2 : RemoteOutcome) (now : Int),
        Retrieve remote2 (NewCacheableClient NoExpiration) now
            (Retrieve remote (NewCacheableClient NoExpiration) now0 st p).st p
          = ⟨(Retrieve remote (NewCacheableClient NoExpiration) now0 st p).value, none,
             (Retrieve remote (NewCacheableClient NoExpiration) now0 st p).st, 0⟩)
    ∧ (∀ (remote : RemoteOutcome) (T ε now0 : Int) (st : CacheSt) (p : Policy),
      0 < T → 1 ≤ ε →
      (Retrieve remote (NewCacheableClient T) now0 st p).err = none →
      (Retrieve remote (NewCacheableClient T) now0 st p).fetchCalls = 1 →
      ∀ remote2 : RemoteOutcome,
        (Retrieve remote2 (NewCacheableClient T) (now0 + T + ε)
            (Retrieve remote (NewCacheableClient T) now0 st p).st p).fetchCalls = 1) := by
  constructor
  · intro remote now0 st p h0 h1 remote2 now
    obtain ⟨resp, hc, hg, heq⟩ := retrieve_success_shape remote _ now0 st p h1 h0
    rw [heq]
    exact retrieve_hit_no_fetch remote2 _ now _ p resp.Compliance
      (cacheGet_set_same_noexp st now0 _ p.PolicyRuleId resp.Compliance now (by decide))
  · intro remote T ε now0 st p hT hε h0 h1 remote2
    obtain ⟨resp, hc, hg, heq⟩ := retrieve_success_shape remote _ now0 st p h1 h0
    rw [heq]
    have hmiss : cacheGet (cacheSet st now0 (NewCacheableClient T).defaultExpiration
        p.PolicyRuleId resp.Compliance) (now0 + T + ε) p.PolicyRuleId = none := by
      have : (NewCacheableClient T).defaultExpiration = T := rfl
      rw [this]
      exact cacheGet_set_same_expired st now0 T p.PolicyRuleId resp.Compliance
        (now0 + T + ε) hT (by omega)
    rcases hc2 : callEnrich remote2 with r | resp2 <;> simp [Retrieve, hmiss, hc2]

/-- Witness for C8: a successful fetch of rule-1 at instant 0; with the
never-expire TTL a Retrieve at instant 1000000 is a pure hit; with TTL 10 a
Retrieve at instant 11 fetches exactly once more. -/
theorem retrieve_ttl_expiry_witness :
    ((Retrieve (.parsed "200 OK" (some ⟨⟨"meta"⟩⟩) none)
        (NewCacheableClient NoExpiration) 0 emptyCache ⟨"rule-1", "engine"⟩).err = none
    ∧ (Retrieve (.parsed "200 OK" (some ⟨⟨"meta"⟩⟩) none)
        (NewCacheableClient NoExpiration) 0 emptyCache ⟨"rule-1", "engine"⟩).fetchCalls = 1
    ∧ Retrieve (.transportErr "down") (NewCacheableClient NoExpiration) 1000000
        (Retrieve (.parsed "200 OK" (some ⟨⟨"meta"⟩⟩) none)
          (NewCacheableClient NoExpiration) 0 emptyCache ⟨"rule-1", "engine"⟩).st
        ⟨"rule-1", "engine"⟩
      = ⟨(Retrieve (.parsed "200 OK" (some ⟨⟨"meta"⟩⟩) none)
            (NewCacheableClient NoExpiration) 0 emptyCache ⟨"rule-1", "engine"⟩).value, none,
         (Retrieve (.parsed "200 OK" (some ⟨⟨"meta"⟩⟩) none)
            (NewCacheableClient NoExpiration) 0 emptyCache ⟨"rule-1", "engine"⟩).st, 0⟩)
    ∧ ((0 : Int) < 10 ∧ (1 : Int) ≤ 1
    ∧ (Retrieve (.transportErr "down") (NewCacheableClient 10) (0 + 10 + 1)
        (Retrieve (.parsed "200 OK" (some ⟨⟨"meta"⟩⟩) none)
          (NewCacheableClient 10) 0 emptyCache ⟨"rule-1", "engine"⟩).st
        ⟨"rule-1", "engine"⟩).fetchCalls = 1) :=
  ⟨⟨by decide, by decide,
    retrieve_ttl_expiry.1 (.parsed "200 OK" (some ⟨⟨"meta"⟩⟩) none) 0 emptyCache
      ⟨"rule-1", "engine"⟩ (by decide) (by decide) (.transportErr "down") 1000000⟩,
   ⟨by decide, by decide,
    retrieve_ttl_expiry.2 (.parsed "200 OK" (some ⟨⟨"meta"⟩⟩) none) 10 1 0 emptyCache
      ⟨"rule-1", "engine"⟩ (by decide) (by decide) (by decide) (by decide)
      (.transportErr "down")⟩⟩

/-- Claim C6, counterexample: two policies that differ in the engine name but
share the rule identifier do not address distinct cache entries — after a
successful Retrieve of the engine-A policy, a Retrieve of the engine-B policy
returns the engine-A cached value with zero fetches, even though the remote
would answer differently. -/
theorem cache_key_collision_on_engine_name :
    (Policy.mk "rule-1" "engine-A" ≠ Policy.mk "rule-1" "engine-B")
    ∧ (Retrieve (.parsed "200 OK" (some ⟨⟨"meta-A"⟩⟩) none) (NewCacheableClient 10) 0
        emptyCache ⟨"rule-1", "engine-A"⟩).fetchCalls = 1
    ∧ (Retrieve (.parsed "200 OK" (some ⟨⟨"meta-B"⟩⟩) none) (NewCacheableClient 10) 0
        (Retrieve (.parsed "200 OK" (some ⟨⟨"meta-A"⟩⟩) none) (NewCacheableClient 10) 0
          emptyCache ⟨"rule-1", "engine-A"⟩).st ⟨"rule-1", "engine-B"⟩).value = ⟨"meta-A"⟩
    ∧ (Retrieve (.parsed "200 OK" (some ⟨⟨"meta-B"⟩⟩) none) (NewCacheableClient 10) 0
        (Retrieve (.parsed "200 OK" (some ⟨⟨"meta-A"⟩⟩) none) (NewCacheableClient 10) 0
          emptyCache ⟨"rule-1", "engine-A"⟩).st ⟨"rule-1", "engine-B"⟩).fetchCalls = 0
    ∧ (Compliance.mk "meta-A" ≠ Compliance.mk "meta-B") := by
  refine ⟨by decide, by decide, by decide, by decide, by decide⟩

/-- Claim C6, amended: the cache key is the policy-rule identifier alone.
Policies sharing a rule identifier share one cache entry regardless of engine
name (a successful fetch for one is served from cache to the other), and
policies with different rule identifiers address independent entries. -/
theorem cache_key_is_rule_id :
    (∀ (p q : Policy), p.PolicyRuleId = q.PolicyRuleId →
      ∀ (remote : RemoteOutcome) (cfg : CacheConfig) (now : Int) (st : CacheSt),
        (Retrieve remote cfg now st p).err = none →
        (Retrieve remote cfg now st p).fetchCalls = 1 →
        ∀ remote2 : RemoteOutcome,
          Retrieve remote2 cfg now (Retrieve remote cfg now st p).st q
            = ⟨(Retrieve remote cfg now st p).value, none,
               (Retrieve remote cfg now st p).st, 0⟩)
    ∧ (∀ (p q : Policy), p.PolicyRuleId ≠ q.PolicyRuleId →
      ∀ (now ttl now2 : Int) (st : CacheSt) (v : Compliance),
        cacheGet (cacheSet st now ttl p.PolicyRuleId v) now2 q.PolicyRuleId
          = cacheGet st now2 q.PolicyRuleId) := by
  constructor
  · intro p q hpq remote cfg now st h0 h1 remote2
    obtain ⟨resp, hc, hg, heq⟩ := retrieve_success_shape remote cfg now st p h1 h0
    rw [heq]
    refine retrieve_hit_no_fetch remote2 cfg now _ q resp.Compliance ?_
    rw [← hpq]
    exact cacheGet_set_same_now st now cfg.defaultExpiration p.PolicyRuleId resp.Compliance
  · intro p q hpq now ttl now2 st v
    exact cacheGet_set_other st now ttl p.PolicyRuleId v now2 q.PolicyRuleId
      (fun h => hpq h.symm)

/-- Witness for the amended C6: sharing works across engine names, and
distinct rule identifiers are independent. -/
theorem cache_key_is_rule_id_witness :
    ((Retrieve (.parsed "200 OK" (some ⟨⟨"meta-A"⟩⟩) none) (NewCacheableClient 10) 0
        emptyCache ⟨"rule-1", "engine-A"⟩).err = none
    ∧ Retrieve (.parsed "200 OK" (some ⟨⟨"meta-B"⟩⟩) none) (NewCacheableClient 10) 0
        (Retrieve (.parsed "200 OK" (some ⟨⟨"meta-A"⟩⟩) none) (NewCacheableClient 10) 0
          emptyCache ⟨"rule-1", "engine-A"⟩).st ⟨"rule-1", "engine-B"⟩
      = ⟨(Retrieve (.parsed "200 OK" (some ⟨⟨"meta-A"⟩⟩) none) (NewCacheableClient 10) 0
            emptyCache ⟨"rule-1", "engine-A"⟩).value, none,
         (Retrieve (.parsed "200 OK" (some ⟨⟨"meta-A"⟩⟩) none) (NewCacheableClient 10) 0
            emptyCache ⟨"rule-1", "engine-A"⟩).st, 0⟩)
    ∧ cacheGet (cacheSet emptyCache 0 10 "rule-1" ⟨"meta-A"⟩) 0 "rule-2"
        = cacheGet emptyCache 0 "rule-2" :=
  ⟨⟨by decide,
    cache_key_is_rule_id.1 ⟨"rule-1", "engine-A"⟩ ⟨"rule-1", "engine-B"⟩ rfl
      (.parsed "200 OK" (some ⟨⟨"meta-A"⟩⟩) none) (NewCacheableClient 10) 0 emptyCache
      (by decide) (by decide) (.parsed "200 OK" (some ⟨⟨"meta-B"⟩⟩) none)⟩,
   cache_key_is_rule_id.2 ⟨"rule-1", "engine-A"⟩ ⟨"rule-2", "engine-A"⟩ (by decide)
     0 10 0 emptyCache ⟨"meta-A"⟩⟩

/-- The record loop returns one output record per input record. -/
theorem processLoop_length {α σ : Type} (ext : α → Except String (Policy × σ))
    (app : α → Compliance → σ → Except String α)
    (remote : Policy → RemoteOutcome) (cfg : CacheConfig) (now : Int) :
    ∀ (rs : List α) (st : CacheSt),
      (processLoop ext app remote cfg now rs st).1.length = rs.length := by
  intro rs
  induction rs with
  | nil => intro st; rfl
  | cons r rest ih =>
    intro st
    simp only [processLoop]
    rcases h1 : processRecord ext app remote cfg now st r with ⟨rOut, stNext⟩
    rcases h2 : processLoop ext app remote cfg now rest stNext with ⟨rsOut, stFinal⟩
    have := ih stNext
    rw [h2] at this
    simp [this]

/-- The i-th output of the record loop is the processing of the i-th input
record at the cache state threaded through the first i records. -/
theorem processLoop_get {α σ : Type} (ext : α → Except String (Policy × σ))
    (app : α → Compliance → σ → Except String α)
    (remote : Policy → RemoteOutcome) (cfg : CacheConfig) (now : Int) :
    ∀ (rs : List α) (st : CacheSt) (i : Nat) (r : α), rs.get? i = some r →
      (processLoop ext app remote cfg now rs st).1.get? i
        = some (processRecord ext app remote cfg now
            (processLoop ext app remote cfg now (rs.take i) st).2 r).1 := by
  intro rs
  induction rs with
  | nil => intro st i r h; simp at h
  | cons r0 rest ih =>
    intro st i r h
    cases i with
    | zero =>
      simp at h
      subst h
      simp only [List.take_zero, processLoop]
      rcases h1 : processRecord ext app remote cfg now st r0 with ⟨rOut, stNext⟩
      rcases h2 : processLoop ext app remote cfg now rest stNext with ⟨rsOut, stFinal⟩
      simp [h1]
    | succ i =>
      simp only [List.get?_cons_succ] at h
      simp only [List.take_succ_cons, processLoop]
      rcases h1 : processRecord ext app remote cfg now st r0 with ⟨rOut, stNext⟩
      rcases h2 : processLoop ext app remote cfg now rest stNext with ⟨rsOut, stFinal⟩
      have := ih stNext i r h
      rw [h2] at this
      simpa [h1] using this

/-- Claim C7: processLogs returns a nil error unconditionally, visits records
in batch order producing one output per input at the threaded cache state,
and a record whose key extraction fails or whose enrichment retrieval fails
passes through unmodified while the rest of the batch is still processed. -/
theorem processLogs_continue_on_error {α σ : Type}
    (ext : α → Except String (Policy × σ))
    (app : α → Compliance → σ → Except String α)
    (remote : Policy → RemoteOutcome) (cfg : CacheConfig) (now : Int)
    (records : List α) (st : CacheSt) :
    (processLogs ext app remote cfg now records st).err = none
    ∧ (processLogs ext app remote cfg now records st).records.length = records.length
    ∧ (∀ (i : Nat) (r : α), records.get? i = some r →
        (processLogs ext app remote cfg now records st).records.get? i
          = some (processRecord ext app remote cfg now
              (processLogs ext app remote cfg now (records.take i) st).st r).1)
    ∧ (∀ (st2 : CacheSt) (r : α) (e : String), ext r = .error e →
        processRecord ext app remote cfg now st2 r = (r, st2))
    ∧ (∀ (st2 : CacheSt) (r : α) (p : Policy) (s : σ) (e : String),
        ext r = .ok (p, s) → (Retrieve (remote p) cfg now st2 p).err = some e →
        (processRecord ext app remote cfg now st2 r).1 = r) := by
  refine ⟨rfl, processLoop_length ext app remote cfg now records st, ?_, ?_, ?_⟩
  · intro i r hr
    exact processLoop_get ext app remote cfg now records st i r hr
  · intro st2 r e hx
    simp [processRecord, hx]
  · intro st2 r p s e hx he
    simp [processRecord, hx, he]

/-- Witness for C7: a three-record batch of naturals where record index 1
fails extraction — the batch returns no error, keeps its length, and the
failing record passes through unmodified. -/
theorem processLogs_continue_on_error_witness :
    (processLogs (fun n => if n = 2 then .error "no key" else .ok (⟨"rule-1", "eng"⟩, ()))
        (fun n _ _ => .ok (n + 100)) (fun _ => .parsed "200 OK" (some ⟨⟨"meta"⟩⟩) none)
        (NewCacheableClient 10) 0 [1, 2, 3] emptyCache).err = none
    ∧ (processLogs (fun n => if n = 2 then .error "no key" else .ok (⟨"rule-1", "eng"⟩, ()))
        (fun n _ _ => .ok (n + 100)) (fun _ => .parsed "200 OK" (some ⟨⟨"meta"⟩⟩) none)
        (NewCacheableClient 10) 0 [1, 2, 3] emptyCache).records.length = 3
    ∧ processRecord (fun n => if n = 2 then .error "no key" else .ok (⟨"rule-1", "eng"⟩, ()))
        (fun n _ _ => .ok (n + 100)) (fun _ => .parsed "200 OK" (some ⟨⟨"meta"⟩⟩) none)
        (NewCacheableClient 10) 0 emptyCache 2 = (2, emptyCache) :=
  ⟨(processLogs_continue_on_error (fun n => if n = 2 then .error "no key" else .ok (⟨"rule-1", "eng"⟩, ()))
      (fun n _ _ => .ok (n + 100)) (fun _ => .parsed "200 OK" (some ⟨⟨"meta"⟩⟩) none)
      (NewCacheableClient 10) 0 [1, 2, 3] emptyCache).1,
   (processLogs_continue_on_error (fun n => if n = 2 then .error "no key" else .ok (⟨"rule-1", "eng"⟩, ()))
      (fun n _ _ => .ok (n + 100)) (fun _ => .parsed "200 OK" (some ⟨⟨"meta"⟩⟩) none)
      (NewCacheableClient 10) 0 [1, 2, 3] emptyCache).2.1,
   (processLogs_continue_on_error (fun n => if n = 2 then .error "no key" else .ok (⟨"rule-1", "eng"⟩, ()))
      (fun n _ _ => .ok (n + 100)) (fun _ => .parsed "200 OK" (some ⟨⟨"meta"⟩⟩) none)
      (NewCacheableClient 10) 0 [1, 2, 3] emptyCache).2.2.2.1 emptyCache 2 "no key" rfl⟩

/-- Claim C2: a thread at the re-check step (which in this model is reached
only after acquiring the coordinator lock) reads the store again before any
fetch: when the re-check finds a value it returns that value with no fetcher
invocation, and only a re-check miss issues the fetch. -/
theorem retrieve_rechecks_under_lock (ora : Nat → Option Compliance)
    (c : CConfig) (tid : Bool) (h : tstateOf c tid = .recheck) :
    (∀ v : Compliance, c.cache = some v →
      tstateOf (step ora c tid) tid = .doneOk v
      ∧ (step ora c tid).fetchCount = c.fetchCount
      ∧ (step ora c tid).cache = c.cache)
    ∧ (c.cache = none →
      tstateOf (step ora c tid) tid = .fetching (ora c.fetchCount)
      ∧ (step ora c tid).fetchCount = c.fetchCount + 1) := by
  rcases c with ⟨cache, fc, t0, t1⟩
  cases tid
  · simp only [tstateOf] at h
    subst h
    constructor
    · intro v hv
      subst hv
      simp [step, tstep, tstateOf]
    · intro hv
      subst hv
      simp [step, tstep, tstateOf]
  · simp only [tstateOf] at h
    subst h
    constructor
    · intro v hv
      subst hv
      simp [step, tstep, tstateOf]
    · intro hv
      subst hv
      simp [step, tstep, tstateOf]

/-- Witness for C2: a concrete configuration re-checking a populated cache. -/
theorem retrieve_rechecks_under_lock_witness :
    tstateOf ⟨some ⟨"meta"⟩, 1, .recheck, .start⟩ false = .recheck
    ∧ (tstateOf (step (fun _ => none) ⟨some ⟨"meta"⟩, 1, .recheck, .start⟩ false) false
        = .doneOk ⟨"meta"⟩
      ∧ (step (fun _ => none) ⟨some ⟨"meta"⟩, 1, .recheck, .start⟩ false).fetchCount
        = (⟨some ⟨"meta"⟩, 1, .recheck, .start⟩ : CConfig).fetchCount
      ∧ (step (fun _ => none) ⟨some ⟨"meta"⟩, 1, .recheck, .start⟩ false).cache
        = (⟨some ⟨"meta"⟩, 1, .recheck, .start⟩ : CConfig).cache) :=
  ⟨by decide,
   (retrieve_rechecks_under_lock (fun _ => none) ⟨some ⟨"meta"⟩, 1, .recheck, .start⟩
     false (by decide)).1 ⟨"meta"⟩ rfl⟩

/-- A stepping thread never makes both threads hold the lock: the stepped
thread acquires it only when the other does not hold it, and keeps or
releases it otherwise. -/
theorem tstep_lockExcl (ora : Nat → Option Compliance) (a b : TState)
    (cache : Option Compliance) (fc : Nat)
    (h : ¬(holdsLock a = true ∧ holdsLock b = true)) :
    ¬(holdsLock (tstep ora a b cache fc).1 = true ∧ holdsLock b = true) := by
  cases a with
  | start =>
    cases cache <;> simp only [tstep] <;> simp [holdsLock]
  | lockWait =>
    cases hB : holdsLock b
    · simp [tstep, hB]
    · simp only [tstep, hB, if_pos]
      simp [holdsLock]
  | recheck =>
    have hB : holdsLock b = false := by
      cases hBB : holdsLock b
      · rfl
      · exact absurd ⟨rfl, hBB⟩ h
    cases cache
    · simp [tstep, hB]
    · simp only [tstep]
      simp [holdsLock]
  | fetching r =>
    cases r <;> simp only [tstep] <;> simp [holdsLock]
  | doneOk w =>
    simp only [tstep]
    simp [holdsLock]
  | doneErr =>
    simp only [tstep]
    simp [holdsLock]

/-- Lock exclusion is preserved by every step of either thread. -/
theorem lockExcl_step (ora : Nat → Option Compliance) (c : CConfig) (tid : Bool)
    (h : lockExcl c) : lockExcl (step ora c tid) := by
  rcases c with ⟨cache, fc, t0, t1⟩
  cases tid
  · rcases ht : tstep ora t0 t1 cache fc with ⟨t, ca, f⟩
    simp only [step, ht, lockExcl]
    have := tstep_lockExcl ora t0 t1 cache fc h
    rw [ht] at this
    exact this
  · rcases ht : tstep ora t1 t0 cache fc with ⟨t, ca, f⟩
    simp only [step, ht, lockExcl]
    have hswap : ¬(holdsLock t1 = true ∧ holdsLock t0 = true) := fun hh => h ⟨hh.2, hh.1⟩
    have := tstep_lockExcl ora t1 t0 cache fc hswap
    rw [ht] at this
    exact fun hh => this ⟨hh.2, hh.1⟩

/-- Lock exclusion holds along every schedule. -/
theorem lockExcl_run (ora : Nat → Option Compliance) (sched : List Bool)
    (c : CConfig) (h : lockExcl c) : lockExcl (run ora sched c) := by
  induction sched generalizing c with
  | nil => exact h
  | cons s rest ih => exact ih (step ora c s) (lockExcl_step ora c s h)

/-- A fetching thread holds the lock. -/
theorem isFetching_holdsLock (t : TState) (h : isFetching t = true) :
    holdsLock t = true := by
  cases t <;> simp [isFetching, holdsLock] at h ⊢

/-- A finished thread is either a success with some value or the error exit. -/
theorem isDone_shape (t : TState) (h : isDone t = true) :
    (∃ w, t = .doneOk w) ∨ t = .doneErr := by
  cases t <;> simp [isDone] at h ⊢

/-- The success-oracle invariant is symmetric in the two threads. -/
theorem okInv_swap (v : Compliance) (a b : TState) (cache : Option Compliance)
    (fc : Nat) (h : OkInv v a b cache fc) : OkInv v b a cache fc := by
  obtain ⟨mutex, cacheVal, fcLe, cacheFc, fetchA, fetchB, okA, okB, errA, errB, fcAcc⟩ := h
  refine ⟨fun hh => mutex ⟨hh.2, hh.1⟩, cacheVal, fcLe, cacheFc, fetchB, fetchA,
    okB, okA, errB, errA, ?_⟩
  intro h1
  rcases fcAcc h1 with h2 | h2 | h2
  · exact Or.inl h2
  · exact Or.inr (Or.inr h2)
  · exact Or.inr (Or.inl h2)

/-- One step of the first thread preserves the success-oracle invariant. -/
theorem okInv_tstep (v : Compliance) (a b : TState) (cache : Option Compliance)
    (fc : Nat) (h : OkInv v a b cache fc) :
    OkInv v (tstep (fun _ => some v) a b cache fc).1 b
      (tstep (fun _ => some v) a b cache fc).2.1
      (tstep (fun _ => some v) a b cache fc).2.2 := by
  obtain ⟨mutex, cacheVal, fcLe, cacheFc, fetchA, fetchB, okA, okB, errA, errB, fcAcc⟩ := h
  cases a with
  | start =>
    cases cache with
    | none =>
      simp only [tstep]
      refine ⟨?_, Or.inl rfl, fcLe, by simp, by simp, fetchB, by simp, okB, by simp,
        errB, ?_⟩
      · intro hh
        simp [holdsLock] at hh
      · intro h1
        rcases fcAcc h1 with hcv | hf | hfb
        · exact absurd hcv (by simp)
        · simp [isFetching] at hf
        · exact Or.inr (Or.inr hfb)
    | some w =>
      have hw : w = v := by
        rcases cacheVal with h1 | h1
        · exact absurd h1 (by simp)
        · exact Option.some.inj h1
      subst hw
      simp only [tstep]
      refine ⟨?_, Or.inr rfl, fcLe, cacheFc, by simp, fetchB, ?_, okB, by simp, errB,
        fun _ => Or.inl rfl⟩
      · intro hh
        simp [holdsLock] at hh
      · intro u hu
        cases hu
        exact ⟨rfl, cacheFc rfl⟩
  | lockWait =>
    cases hB : holdsLock b
    · have hred : tstep (fun _ => some v) .lockWait b cache fc = (.recheck, cache, fc) := by
        simp [tstep, hB]
      rw [hred]
      refine ⟨?_, cacheVal, fcLe, cacheFc, by simp, fetchB, by simp, okB, by simp,
        errB, ?_⟩
      · intro hh
        rw [hB] at hh
        simp at hh
      · intro h1
        rcases fcAcc h1 with hcv | hf | hfb
        · exact Or.inl hcv
        · simp [isFetching] at hf
        · exact Or.inr (Or.inr hfb)
    · have hred : tstep (fun _ => some v) .lockWait b cache fc = (.lockWait, cache, fc) := by
        simp [tstep, hB]
      rw [hred]
      exact ⟨mutex, cacheVal, fcLe, cacheFc, fetchA, fetchB, okA, okB, errA, errB, fcAcc⟩
  | recheck =>
    have hB : holdsLock b = false := by
      cases hBB : holdsLock b
      · rfl
      · exact absurd ⟨rfl, hBB⟩ mutex
    cases cache with
    | some w =>
      have hw : w = v := by
        rcases cacheVal with h1 | h1
        · exact absurd h1 (by simp)
        · exact Option.some.inj h1
      subst hw
      simp only [tstep]
      refine ⟨?_, Or.inr rfl, fcLe, cacheFc, by simp, fetchB, ?_, okB, by simp, errB,
        fun _ => Or.inl rfl⟩
      · intro hh
        simp [holdsLock] at hh
      · intro u hu
        cases hu
        exact ⟨rfl, cacheFc rfl⟩
    | none =>
      have hfc0 : fc = 0 := by
        by_cases h1 : fc = 1
        · rcases fcAcc h1 with hcv | hf | hfb
          · exact absurd hcv (by simp)
          · simp [isFetching] at hf
          · have := isFetching_holdsLock b hfb
            rw [hB] at this
            exact absurd this (by simp)
        · omega
      subst hfc0
      simp only [tstep]
      refine ⟨?_, Or.inl rfl, by omega, by simp, ?_, ?_, by simp, ?_, by simp, errB, ?_⟩
      · intro hh
        rw [hB] at hh
        simp at hh
      · intro r hr
        cases hr
        exact ⟨rfl, rfl, rfl⟩
      · intro r hr
        have := isFetching_holdsLock b (by rw [hr]; rfl)
        rw [hB] at this
        simp at this
      · intro w hw
        exact ⟨(okB w hw).1, rfl⟩
      · intro _
        exact Or.inr (Or.inl rfl)
  | fetching r =>
    obtain ⟨hr, hcache, hfc⟩ := fetchA r rfl
    subst hr
    subst hcache
    simp only [tstep]
    refine ⟨?_, Or.inr rfl, fcLe, fun _ => hfc, by simp, ?_, ?_, okB, by simp, errB,
      fun _ => Or.inl rfl⟩
    · intro hh
      simp [holdsLock] at hh
    · intro r2 hr2
      have hBB := isFetching_holdsLock b (by rw [hr2]; rfl)
      exact absurd ⟨rfl, hBB⟩ mutex
    · intro u hu
      cases hu
      exact ⟨rfl, hfc⟩
  | doneOk w =>
    simp only [tstep]
    exact ⟨mutex, cacheVal, fcLe, cacheFc, fetchA, fetchB, okA, okB, errA, errB, fcAcc⟩
  | doneErr => exact absurd rfl errA

/-- A step of either thread preserves the success-oracle invariant. -/
theorem okInv_step (v : Compliance) (c : CConfig) (tid : Bool)
    (h : okInvC v c) : okInvC v (step (fun _ => some v) c tid) := by
  rcases c with ⟨cache, fc, t0, t1⟩
  cases tid
  · rcases ht : tstep (fun _ => some v) t0 t1 cache fc with ⟨t, ca, f⟩
    simp only [step, ht]
    have := okInv_tstep v t0 t1 cache fc h
    rw [ht] at this
    exact this
  · rcases ht : tstep (fun _ => some v) t1 t0 cache fc with ⟨t, ca, f⟩
    simp only [step, ht]
    have := okInv_tstep v t1 t0 cache fc (okInv_swap v t0 t1 cache fc h)
    rw [ht] at this
    exact okInv_swap v t t0 ca f this

/-- The success-oracle invariant holds along every schedule. -/
theorem okInv_run (v : Compliance) (sched : List Bool) (c : CConfig)
    (h : okInvC v c) : okInvC v (run (fun _ => some v) sched c) := by
  induction sched generalizing c with
  | nil => exact h
  | cons s rest ih => exact ih (step (fun _ => some v) c s) (okInv_step v c s h)

/-- The invariant holds in the initial configuration. -/
theorem okInv_init (v : Compliance) : okInvC v initConfig := by
  show OkInv v .start .start none 0
  refine ⟨?_, Or.inl rfl, by omega, by simp, by simp, by simp, by simp, by simp,
    by simp, by simp, by simp⟩
  intro hh
  simp [holdsLock] at hh

/-- Claim C1, counterexample: with a failing fetcher, the schedule in which
both callers miss on the fast path before either acquires the lock ends with
both callers finished and the remote fetcher invoked twice — the first
failure of the first caller is not shared, so the second caller performs its own
independent fetch, contradicting the claimed exactly-one fetch. -/
theorem concurrent_error_double_fetch :
    isDone (run (fun _ => none) [false, true, false, false, false, true, true, true]
      initConfig).t0 = true
    ∧ isDone (run (fun _ => none) [false, true, false, false, false, true, true, true]
      initConfig).t1 = true
    ∧ (run (fun _ => none) [false, true, false, false, false, true, true, true]
      initConfig).t0 = .doneErr
    ∧ (run (fun _ => none) [false, true, false, false, false, true, true, true]
      initConfig).t1 = .doneErr
    ∧ (run (fun _ => none) [false, true, false, false, false, true, true, true]
      initConfig).fetchCount = 2 := by
  refine ⟨by decide, by decide, by decide, by decide, by decide⟩

/-- Claim C1, amended: at most one remote fetch is ever in flight at any
instant (the coordinator lock serializes fetches); and when the fetch
succeeds, two concurrent callers on a previously unfetched key cause exactly
one fetcher invocation and both observe that same fetched value. When the
fetch fails, each caller may perform its own fetch (never concurrently). -/
theorem retrieve_single_flight_amended :
    (∀ (ora : Nat → Option Compliance) (sched : List Bool),
      ¬(isFetching (run ora sched initConfig).t0 = true
        ∧ isFetching (run ora sched initConfig).t1 = true))
    ∧ (∀ (v : Compliance) (sched : List Bool),
      isDone (run (fun _ => some v) sched initConfig).t0 = true →
      isDone (run (fun _ => some v) sched initConfig).t1 = true →
      (run (fun _ => some v) sched initConfig).fetchCount = 1
      ∧ (run (fun _ => some v) sched initConfig).t0 = .doneOk v
      ∧ (run (fun _ => some v) sched initConfig).t1 = .doneOk v) := by
  constructor
  · intro ora sched hh
    have hinit : lockExcl initConfig := by
      intro hx
      simp [holdsLock, initConfig] at hx
    exact lockExcl_run ora sched initConfig hinit
      ⟨isFetching_holdsLock _ hh.1, isFetching_holdsLock _ hh.2⟩
  · intro v sched h0 h1
    have hI : OkInv v (run (fun _ => some v) sched initConfig).t0
        (run (fun _ => some v) sched initConfig).t1
        (run (fun _ => some v) sched initConfig).cache
        (run (fun _ => some v) sched initConfig).fetchCount :=
      okInv_run v sched initConfig (okInv_init v)
    rcases isDone_shape _ h0 with ⟨w0, hw0⟩ | hbad
    · rcases isDone_shape _ h1 with ⟨w1, hw1⟩ | hbad1
      · obtain ⟨hww0, hfc⟩ := hI.okA w0 hw0
        obtain ⟨hww1, _⟩ := hI.okB w1 hw1
        refine ⟨hfc, ?_, ?_⟩
        · rw [hw0, hww0]
        · rw [hw1, hww1]
      · exact absurd hbad1 hI.errB
    · exact absurd hbad hI.errA

/-- Witness for the amended C1: the same contended schedule as the
counterexample, now with a succeeding fetcher — one fetch, both callers get
the value. -/
theorem retrieve_single_flight_amended_witness :
    isDone (run (fun _ => some ⟨"meta"⟩)
      [false, true, false, false, false, true, true, true] initConfig).t0 = true
    ∧ isDone (run (fun _ => some ⟨"meta"⟩)
      [false, true, false, false, false, true, true, true] initConfig).t1 = true
    ∧ ((run (fun _ => some ⟨"meta"⟩)
        [false, true, false, false, false, true, true, true] initConfig).fetchCount = 1
      ∧ (run (fun _ => some ⟨"meta"⟩)
        [false, true, false, false, false, true, true, true] initConfig).t0
          = .doneOk ⟨"meta"⟩
      ∧ (run (fun _ => some ⟨"meta"⟩)
        [false, true, false, false, false, true, true, true] initConfig).t1
          = .doneOk ⟨"meta"⟩) :=
  ⟨by decide, by decide,
   retrieve_single_flight_amended.2 ⟨"meta"⟩
     [false, true, false, false, false, true, true, true] (by decide) (by decide)⟩
